import Mathlib

/-!
Verification of the certfix-agent repository: a shallow embedding of the
updater (internal/updater.go), the machine identifier package
(pkg/machineidentifier) and the agent command (cmd/agent.go), together with
theorems settling the specified behavioural claims.

External collaborators (the network, the filesystem, the service manager)
are modelled as explicit inputs: an environment record carries the outcome
of each collaborator call, and functions return the trace of externally
visible effects they perform.
-/

namespace CertfixAgent

/-! ## Go string primitives used by the sources -/

/-- Go strings.SplitN worker: m is the number of separator cuts still
allowed; acc holds the current piece reversed. -/
def splitNAux (sep : Char) (m : Nat) (s : List Char) (acc : List Char) :
    List (List Char) :=
  match m, s with
  | 0, s => [acc.reverse ++ s]
  | _ + 1, [] => [acc.reverse]
  | m + 1, c :: cs =>
    if c = sep then acc.reverse :: splitNAux sep m cs []
    else splitNAux sep (m + 1) cs (c :: acc)

/-- Go strings.SplitN(s, sep, n) for a one-character separator. -/
def goSplitN (sep : Char) (n : Nat) (s : List Char) : List (List Char) :=
  match n with
  | 0 => []
  | m + 1 => splitNAux sep m s []

/-- Go strings.Split worker. -/
def splitAllAux (sep : Char) : List Char → List Char → List (List Char)
  | [], acc => [acc.reverse]
  | c :: cs, acc =>
    if c = sep then acc.reverse :: splitAllAux sep cs []
    else splitAllAux sep cs (c :: acc)

/-- Go strings.Split(s, sep) for a one-character separator. -/
def goSplit (sep : Char) (s : List Char) : List (List Char) :=
  splitAllAux sep s []

/-- Split at the first occurrence of sep (Go strings.IndexRune followed by
slicing before/after the found index); none when sep does not occur. -/
def breakAtChar (sep : Char) : List Char → Option (List Char × List Char)
  | [] => none
  | c :: cs =>
    if c = sep then some ([], cs)
    else (breakAtChar sep cs).map fun p => (c :: p.1, p.2)

/-- Go strings.HasPrefix on character lists (pattern first). -/
def hasPrefixChars : List Char → List Char → Bool
  | [], _ => true
  | _ :: _, [] => false
  | p :: ps, c :: cs => p = c && hasPrefixChars ps cs

/-- ASCII lower-casing of one character (the MAC strings and version tags
this repository lower-cases are ASCII). -/
def asciiLower (c : Char) : Char :=
  if 65 ≤ c.toNat ∧ c.toNat ≤ 90 then Char.ofNat (c.toNat + 32) else c

/-- Go strings.ToLower restricted to ASCII input. -/
def goToLower (s : String) : String := ⟨s.data.map asciiLower⟩

/-- Go unicode.IsSpace (the exact White_Space code points). -/
def goIsSpace (c : Char) : Bool :=
  let n := c.toNat
  n = 9 || n = 10 || n = 11 || n = 12 || n = 13 || n = 32 ||
  n = 133 || n = 160 || n = 5760 || (8192 ≤ n && n ≤ 8202) ||
  n = 8232 || n = 8233 || n = 8239 || n = 8287 || n = 12288

/-- Go strings.TrimSpace. -/
def goTrimSpace (s : String) : String :=
  ⟨(((s.data.dropWhile goIsSpace).reverse.dropWhile goIsSpace).reverse)⟩

/-- UTF-8 encoding of one character, as byte values (Go []byte(s)
encodes each rune this way). -/
def utf8Bytes (c : Char) : List Nat :=
  let n := c.toNat
  if n < 128 then [n]
  else if n < 2048 then [192 + n / 64, 128 + n % 64]
  else if n < 65536 then [224 + n / 4096, 128 + n / 64 % 64, 128 + n % 64]
  else [240 + n / 262144, 128 + n / 4096 % 64, 128 + n / 64 % 64, 128 + n % 64]

/-- Go []byte(s): the UTF-8 bytes of a string. -/
def strBytes (s : String) : List Nat := (s.data.map utf8Bytes).flatten

/-- Go len(s): the UTF-8 byte length of a string. -/
def goLen (s : String) : Nat := (strBytes s).length

/-! ## Semantic versions (github.com/blang/semver/v4, as used by
internal/updater.go) -/

namespace Semver

/-- One dot-separated prerelease identifier (semver PRVersion). -/
structure PRVersion where
  versionStr : List Char
  versionNum : Nat
  isNum : Bool
deriving DecidableEq, Repr

/-- A parsed semantic version (semver Version). The zero value is what
blang/semver returns alongside every parse error. -/
structure Version where
  major : Nat
  minor : Nat
  patch : Nat
  pre : List PRVersion
  build : List (List Char)
deriving DecidableEq, Repr

def Version.zero : Version := ⟨0, 0, 0, [], []⟩

/-- semver containsOnly(s, numbers). -/
def isNumChar (c : Char) : Bool := 48 ≤ c.toNat && c.toNat ≤ 57

/-- semver containsOnly(s, alphanum) where alphanum is letters, digits
and the hyphen. -/
def isAlphanumChar (c : Char) : Bool :=
  isNumChar c || (97 ≤ c.toNat && c.toNat ≤ 122) ||
  (65 ≤ c.toNat && c.toNat ≤ 90) || c = '-'

/-- semver hasLeadingZeroes. -/
def hasLeadingZeroes (s : List Char) : Bool :=
  decide (s.length > 1) && hasPrefixChars ['0'] s

/-- Go strconv.ParseUint(s, 10, 64): none on empty input, a non-digit
character, or 64-bit overflow. -/
def parseUint64 (s : List Char) : Option Nat :=
  if s.isEmpty then none
  else if s.all isNumChar then
    let v := s.foldl (fun acc c => acc * 10 + (c.toNat - 48)) 0
    if v < 18446744073709551616 then some v else none
  else none

/-- The digits-only / no-leading-zeroes / ParseUint sequence applied by
semver Parse to each of the major, minor and patch components. -/
def parseNumPart (s : List Char) : Option Nat :=
  if !(s.all isNumChar) then none
  else if hasLeadingZeroes s then none
  else parseUint64 s

/-- semver NewPRVersion. -/
def newPRVersion (s : List Char) : Option PRVersion :=
  if s.isEmpty then none
  else if s.all isNumChar then
    if hasLeadingZeroes s then none
    else match parseUint64 s with
      | none => none
      | some n => some ⟨[], n, true⟩
  else if s.all isAlphanumChar then some ⟨s, 0, false⟩
  else none

/-- The prerelease loop of semver Parse. -/
def parsePRList : List (List Char) → Option (List PRVersion)
  | [] => some []
  | p :: ps =>
    match newPRVersion p with
    | none => none
    | some pr => (parsePRList ps).map (pr :: ·)

/-- The build-metadata loop of semver Parse: every part must be non-empty
and alphanumeric. -/
def checkBuildList : List (List Char) → Bool
  | [] => true
  | b :: bs => !b.isEmpty && b.all isAlphanumChar && checkBuildList bs

/-- semver Parse (and Make, which is the same function): none models an
error return, in which case the Go caller receives the zero Version. -/
def parse (str : String) : Option Version :=
  let s := str.data
  if s.isEmpty then none
  else
    match goSplitN '.' 3 s with
    | [p0, p1, p2] =>
      match parseNumPart p0, parseNumPart p1 with
      | some major, some minor =>
        let bsplit := breakAtChar '+' p2
        let buildStrs := match bsplit with
          | none => []
          | some (_, after) => goSplit '.' after
        let patchStr1 := match bsplit with
          | none => p2
          | some (before, _) => before
        let psplit := breakAtChar '-' patchStr1
        let preStrs := match psplit with
          | none => []
          | some (_, after) => goSplit '.' after
        let patchStr := match psplit with
          | none => patchStr1
          | some (before, _) => before
        match parseNumPart patchStr with
        | none => none
        | some patch =>
          match parsePRList preStrs with
          | none => none
          | some pres =>
            if checkBuildList buildStrs then some ⟨major, minor, patch, pres, buildStrs⟩
            else none
      | _, _ => none
    | _ => none

/-- Go byte-wise string comparison (UTF-8 byte order coincides with code
point order). -/
def charListCompare : List Char → List Char → Int
  | [], [] => 0
  | [], _ :: _ => -1
  | _ :: _, [] => 1
  | a :: as, b :: bs =>
    if a.toNat < b.toNat then -1
    else if b.toNat < a.toNat then 1
    else charListCompare as bs

/-- semver PRVersion.Compare. -/
def prCompare (v o : PRVersion) : Int :=
  if v.isNum && !o.isNum then -1
  else if !v.isNum && o.isNum then 1
  else if v.isNum && o.isNum then
    (if v.versionNum = o.versionNum then 0
     else if v.versionNum > o.versionNum then 1 else -1)
  else
    (if v.versionStr = o.versionStr then 0
     else if charListCompare v.versionStr o.versionStr = 1 then 1 else -1)

/-- The prerelease-list comparison loop of semver Version.Compare. -/
def preListCompare : List PRVersion → List PRVersion → Int
  | [], [] => 0
  | [], _ :: _ => -1
  | _ :: _, [] => 1
  | a :: as, b :: bs =>
    let c := prCompare a b
    if c = 0 then preListCompare as bs else c

/-- semver Version.Compare. -/
def compareVersions (v o : Version) : Int :=
  if v.major ≠ o.major then (if v.major > o.major then 1 else -1)
  else if v.minor ≠ o.minor then (if v.minor > o.minor then 1 else -1)
  else if v.patch ≠ o.patch then (if v.patch > o.patch then 1 else -1)
  else if v.pre.isEmpty && o.pre.isEmpty then 0
  else if v.pre.isEmpty && !o.pre.isEmpty then 1
  else if !v.pre.isEmpty && o.pre.isEmpty then -1
  else preListCompare v.pre o.pre

/-- semver Version.GT. -/
def versionGT (v o : Version) : Bool := compareVersions v o = 1

end Semver

/-! ## Update engine (internal/updater.go)

The network, the filesystem and systemctl are collaborators; an
UpdateEnv record carries the outcome of each collaborator call and the
functions return the ordered trace of externally visible effects. -/

/-- internal Config (internal/config.go). -/
structure Config where
  token : String
  endpoint : String
  autoUpdate : Bool
  currentVer : String
deriving DecidableEq, Repr

/-- One element of the Assets slice of a Release. -/
structure Asset where
  browserDownloadURL : String
  name : String
deriving DecidableEq, Repr

/-- The decoded GitHub release (Release struct). -/
structure Release where
  tagName : String
  assets : List Asset
deriving DecidableEq, Repr

/-- Outcome of the http.Get plus json.Decode sequence in CheckForUpdates. -/
inductive FetchResult where
  | transportError
  | decodeError
  | ok (rel : Release)
deriving DecidableEq, Repr

/-- Externally visible actions of the update engine. -/
inductive Effect where
  | fetchRelease
  | download (url : String)
  | renameBinary
  | chmodBinary
  | restartService
deriving DecidableEq, Repr

/-- Collaborator outcomes for one CheckForUpdates run. -/
structure UpdateEnv where
  fetch : FetchResult
  downloadOk : Bool
  renameOk : Bool
  chmodOk : Bool
deriving DecidableEq, Repr

/-- A run either returns normally or panics (Go runtime panic), in both
cases having performed a trace of effects. -/
inductive RunResult where
  | normal (effects : List Effect)
  | panicked (effects : List Effect) (msg : String)
deriving DecidableEq, Repr

/-- updateBinary: curl to /tmp, rename over the install path, chmod 0755,
systemctl restart. A failed download or rename returns early; a failed
chmod is only logged and the restart still runs (conditional without an
early return in the source). -/
def updateBinary (url : String) (env : UpdateEnv) : List Effect :=
  if env.downloadOk = false then [.download url]
  else if env.renameOk = false then [.download url, .renameBinary]
  else [.download url, .renameBinary, .chmodBinary, .restartService]

/-- CheckForUpdates: gate on cfg.AutoUpdate, fetch and decode the latest
release, parse both versions with semver.Make discarding the errors (an
unparsable string leaves the zero Version), and when latest.GT(current)
take Assets[0] (a Go index-out-of-range panic when the slice is empty)
and run updateBinary on its URL. -/
def CheckForUpdates (cfg : Config) (env : UpdateEnv) : RunResult :=
  if cfg.autoUpdate = false then .normal []
  else
    match env.fetch with
    | .transportError => .normal [.fetchRelease]
    | .decodeError => .normal [.fetchRelease]
    | .ok rel =>
      let current := (Semver.parse cfg.currentVer).getD Semver.Version.zero
      let latest := (Semver.parse rel.tagName).getD Semver.Version.zero
      if Semver.versionGT latest current then
        match rel.assets with
        | [] => .panicked [.fetchRelease] "index out of range"
        | a :: _ => .normal (.fetchRelease :: updateBinary a.browserDownloadURL env)
      else .normal [.fetchRelease]

/-! ## Machine identifier (pkg/machineidentifier) -/

/-- The five best-effort hardware signals collected by
generateFromHardware, in collection order. The MAC signal is the list
produced by getMACAddresses. -/
structure HardwareSignals where
  systemUUID : String
  macAddresses : List String
  osMachineID : String
  cpuInfo : String
  bootID : String
deriving DecidableEq, Repr

/-- Collaborator state for GenerateMachineID: the persisted machine-id
file content (none models a read error), the hardware signals, and
whether storeMachineID would succeed. -/
structure MachineIDEnv where
  storedFile : Option String
  signals : HardwareSignals
  storeOk : Bool
deriving DecidableEq, Repr

/-- loadStoredMachineID: read the file, trim whitespace, reject exactly
when the trimmed byte length differs from 64 (no hex-digit check). -/
def loadStoredMachineID (readResult : Option String) : Except String String :=
  match readResult with
  | none => .error "read error"
  | some data =>
    let id := goTrimSpace data
    if goLen id ≠ 64 then .error "invalid stored machine ID length"
    else .ok id

/-- The network-interface facts getMACAddresses inspects: the loopback
flag bit and the formatted hardware address (empty when absent). -/
structure NetInterface where
  isLoopback : Bool
  hardwareAddr : String
deriving DecidableEq, Repr

/-- The fixed virtual/hypervisor vendor MAC-prefix list of isVirtualMAC. -/
def virtualMacPrefixList : List String :=
  ["00:00:00", "00:05:69", "00:0c:29", "00:50:56",
   "00:1c:14", "08:00:27", "00:15:5d", "00:16:3e"]

/-- isVirtualMAC: lower-case the MAC and test it against each (also
lower-cased) vendor entry with strings.HasPrefix. -/
def isVirtualMAC (mac : String) : Bool :=
  let macLower := goToLower mac
  virtualMacPrefixList.any fun p =>
    hasPrefixChars (goToLower p).data macLower.data

/-- The interface loop of getMACAddresses: skip loopback interfaces,
keep every non-empty non-virtual formatted address, in interface order. -/
def collectMACs : List NetInterface → List String
  | [] => []
  | i :: rest =>
    if i.isLoopback then collectMACs rest
    else if i.hardwareAddr ≠ "" ∧ isVirtualMAC i.hardwareAddr = false then
      i.hardwareAddr :: collectMACs rest
    else collectMACs rest

/-- Byte-wise string order used by sort.Strings (UTF-8 byte order equals
code point order). -/
def goStringLE (a b : String) : Bool :=
  Semver.charListCompare a.data b.data ≠ 1

/-- Insertion step of the sort performed by sort.Strings. -/
def insertSorted (x : String) : List String → List String
  | [] => [x]
  | y :: ys => if goStringLE x y then x :: y :: ys else y :: insertSorted x ys

/-- sort.Strings, as a stable insertion sort over the byte-wise order
(extensionally the sorted permutation sort.Strings produces). -/
def sortStrings (l : List String) : List String := l.foldr insertSorted []

/-- getMACAddresses: collect then sort for consistency. -/
def getMACAddresses (interfaces : List NetInterface) : List String :=
  sortStrings (collectMACs interfaces)

/-! ## SHA-256 (crypto/sha256, called by generateFromHardware)

Machine words are Nat values reduced modulo 2^32; bytes are Nat values
below 256. -/

namespace Sha256

def M32 : Nat := 4294967296

def add32 (a b : Nat) : Nat := (a + b) % M32

def xor32 (a b : Nat) : Nat := Nat.xor a b

def and32 (a b : Nat) : Nat := Nat.land a b

def not32 (a : Nat) : Nat := Nat.xor a 4294967295

def rotr32 (n x : Nat) : Nat := (x / 2 ^ n + x % 2 ^ n * 2 ^ (32 - n)) % M32

def shr32 (n x : Nat) : Nat := x / 2 ^ n

def ch (x y z : Nat) : Nat := xor32 (and32 x y) (and32 (not32 x) z)

def maj (x y z : Nat) : Nat := xor32 (and32 x y) (xor32 (and32 x z) (and32 y z))

def bsig0 (x : Nat) : Nat := xor32 (rotr32 2 x) (xor32 (rotr32 13 x) (rotr32 22 x))

def bsig1 (x : Nat) : Nat := xor32 (rotr32 6 x) (xor32 (rotr32 11 x) (rotr32 25 x))

def ssig0 (x : Nat) : Nat := xor32 (rotr32 7 x) (xor32 (rotr32 18 x) (shr32 3 x))

def ssig1 (x : Nat) : Nat := xor32 (rotr32 17 x) (xor32 (rotr32 19 x) (shr32 10 x))

/-- The 64 SHA-256 round constants, written in decimal. -/
def K : List Nat :=
  [1116352408, 1899447441, 3049323471, 3921009573,
   961987163, 1508970993, 2453635748, 2870763221,
   3624381080, 310598401, 607225278, 1426881987,
   1925078388, 2162078206, 2614888103, 3248222580,
   3835390401, 4022224774, 264347078, 604807628,
   770255983, 1249150122, 1555081692, 1996064986,
   2554220882, 2821834349, 2952996808, 3210313671,
   3336571891, 3584528711, 113926993, 338241895,
   666307205, 773529912, 1294757372, 1396182291,
   1695183700, 1986661051, 2177026350, 2456956037,
   2730485921, 2820302411, 3259730800, 3345764771,
   3516065817, 3600352804, 4094571909, 275423344,
   430227734, 506948616, 659060556, 883997877,
   958139571, 1322822218, 1537002063, 1747873779,
   1955562222, 2024104815, 2227730452, 2361852424,
   2428436474, 2756734187, 3204031479, 3329325298]

/-- The running hash state: eight 32-bit words. -/
structure HashState where
  a : Nat
  b : Nat
  c : Nat
  d : Nat
  e : Nat
  f : Nat
  g : Nat
  hh : Nat
deriving DecidableEq, Repr

/-- The SHA-256 initial hash value, written in decimal. -/
def initState : HashState :=
  ⟨1779033703, 3144134277, 1013904242, 2773480762,
   1359893119, 2600822924, 528734635, 1541459225⟩

/-- Merkle-Damgard padding: append 0x80, zeros to 56 mod 64, then the
bit length as eight big-endian bytes. -/
def pad (msg : List Nat) : List Nat :=
  let L := msg.length
  msg ++ 128 :: List.replicate ((119 - L % 64) % 64) 0 ++
    (List.range 8).map fun i => 8 * L / 2 ^ (8 * (7 - i)) % 256

/-- Cut the padded message into 64-byte blocks. -/
def toBlocks (l : List Nat) : List (List Nat) :=
  if h : l = [] then []
  else l.take 64 :: toBlocks (l.drop 64)
termination_by l.length
decreasing_by
  simp only [List.length_drop]
  exact Nat.sub_lt (List.length_pos.mpr h) (by norm_num)

/-- Big-endian 32-bit word number i of a 64-byte block. -/
def wordAt (block : List Nat) (i : Nat) : Nat :=
  block.getD (4 * i) 0 * 16777216 + block.getD (4 * i + 1) 0 * 65536 +
    block.getD (4 * i + 2) 0 * 256 + block.getD (4 * i + 3) 0

/-- One extension step of the message schedule: with t words known,
append sigma1(W (t-2)) + W (t-7) + sigma0(W (t-15)) + W (t-16). -/
def scheduleStep (w : List Nat) : List Nat :=
  let t := w.length
  w ++ [add32 (add32 (ssig1 (w.getD (t - 2) 0)) (w.getD (t - 7) 0))
          (add32 (ssig0 (w.getD (t - 15) 0)) (w.getD (t - 16) 0))]

/-- Iterate the schedule extension n times. -/
def extendW : Nat → List Nat → List Nat
  | 0, w => w
  | n + 1, w => extendW n (scheduleStep w)

/-- One compression round. -/
def round (s : HashState) (kw w : Nat) : HashState :=
  let t1 := add32 s.hh (add32 (bsig1 s.e) (add32 (ch s.e s.f s.g) (add32 kw w)))
  let t2 := add32 (bsig0 s.a) (maj s.a s.b s.c)
  ⟨add32 t1 t2, s.a, s.b, s.c, add32 s.d t1, s.e, s.f, s.g⟩

/-- Compress one 64-byte block into the running state. -/
def compress (st : HashState) (block : List Nat) : HashState :=
  let w := extendW 48 ((List.range 16).map (wordAt block))
  let s := (K.zip w).foldl (fun acc p => round acc p.1 p.2) st
  ⟨add32 st.a s.a, add32 st.b s.b, add32 st.c s.c, add32 st.d s.d,
   add32 st.e s.e, add32 st.f s.f, add32 st.g s.g, add32 st.hh s.hh⟩

/-- sha256.Sum256 down to the final eight-word state. -/
def digest (msg : List Nat) : HashState :=
  (toBlocks (pad msg)).foldl compress initState

/-- One lowercase hexadecimal digit. -/
def hexDigitChar (n : Nat) : Char :=
  if n < 10 then Char.ofNat (48 + n) else Char.ofNat (87 + n)

/-- Eight lowercase hex digits of one 32-bit word, most significant
nibble first. -/
def wordHex (w : Nat) : List Char :=
  (List.range 8).map fun i => hexDigitChar (w / 16 ^ (7 - i) % 16)

/-- hex.EncodeToString of the 32-byte digest. -/
def digestChars (st : HashState) : List Char :=
  wordHex st.a ++ wordHex st.b ++ wordHex st.c ++ wordHex st.d ++
    wordHex st.e ++ wordHex st.f ++ wordHex st.g ++ wordHex st.hh

end Sha256

/-- hex.EncodeToString(sha256.Sum256([]byte(s))). -/
def sha256hex (s : String) : String := ⟨Sha256.digestChars (Sha256.digest (strBytes s))⟩

/-- The components slice built by generateFromHardware: one entry per
non-empty signal, appended in the fixed collection order (the MAC
signal is the comma-join of the address list, kept when the list is
non-empty). -/
def componentsOf (s : HardwareSignals) : List String :=
  (if s.systemUUID ≠ "" then [s.systemUUID] else []) ++
  (if s.macAddresses.length > 0 then [String.intercalate "," s.macAddresses] else []) ++
  (if s.osMachineID ≠ "" then [s.osMachineID] else []) ++
  (if s.cpuInfo ≠ "" then [s.cpuInfo] else []) ++
  (if s.bootID ≠ "" then [s.bootID] else [])

/-- generateFromHardware: error when no component was collected, else
the SHA-256 hex of the components joined with the pipe delimiter. -/
def generateFromHardware (s : HardwareSignals) : Except String String :=
  let components := componentsOf s
  if components.isEmpty then .error "could not collect any hardware identifiers"
  else .ok (sha256hex (String.intercalate "|" components))

/-- The fresh-generation arm of GenerateMachineID: derive from hardware;
a storeMachineID failure is only logged, the derived id is returned
either way (env.storeOk does not influence the result). -/
def generateNewID (env : MachineIDEnv) : Except String String :=
  match generateFromHardware env.signals with
  | .error e => .error ("failed to generate machine ID: " ++ e)
  | .ok id => .ok id

/-- GenerateMachineID: prefer the stored id when loading succeeded and
it is non-empty, otherwise generate from hardware. -/
def GenerateMachineID (env : MachineIDEnv) : Except String String :=
  match loadStoredMachineID env.storedFile with
  | .ok id => if id ≠ "" then .ok id else generateNewID env
  | .error _ => generateNewID env

/-! ## Agent command (cmd/agent.go) -/

/-- The agent Config struct of cmd/agent.go, which is also the shape
json.Unmarshal decodes into (absent keys decode to the empty string). -/
structure RawAgentConfig where
  token : String
  endpoint : String
  currentVersion : String
  architecture : String
deriving DecidableEq, Repr

def DEFAULT_VERSION : String := "0.0.0"

/-- loadConfig: read the config file (none models a read failure), decode
it (the unmarshal collaborator returns none on invalid JSON), require a
non-empty token and endpoint, and default an empty current version to
DEFAULT_VERSION. -/
def loadConfig (readResult : Option String)
    (unmarshal : String → Option RawAgentConfig) : Except String RawAgentConfig :=
  match readResult with
  | none => .error "failed to read config file"
  | some data =>
    match unmarshal data with
    | none => .error "failed to parse config file"
    | some config =>
      if config.token = "" then .error "token is required in config file"
      else if config.endpoint = "" then .error "endpoint is required in config file"
      else if config.currentVersion = "" then
        .ok { config with currentVersion := DEFAULT_VERSION }
      else .ok config

/-- Externally visible events of the handleStart registration retry loop
and heartbeat loop. -/
inductive AgentEvent where
  | registerAttempt
  | registerSuccess
  | retryWait
  | heartbeat (ok : Bool)
  | processExit
deriving DecidableEq, Repr

/-- The registration retry loop of handleStart, driven by the successive
outcomes of the registerInstance collaborator calls (true = success): on
failure log, sleep the fixed delay and continue; on success break. The
outcome list is the observed finite window; the loop itself has no exit
other than success. -/
def registerPhase : List Bool → List AgentEvent
  | [] => []
  | outcome :: rest =>
    if outcome then [.registerAttempt, .registerSuccess]
    else .registerAttempt :: .retryWait :: registerPhase rest

/-- handleStart after configuration and snapshot succeed: run the
registration retry loop; once registered, every heartbeat tick sends one
heartbeat whose failure is only logged — the loop state (the registered
instance) never changes, nothing re-registers and nothing exits. The
heartbeat outcome list is the observed finite window of ticks. -/
def handleStartTrace (regOutcomes : List Bool) (hbOutcomes : List Bool) :
    List AgentEvent :=
  registerPhase regOutcomes ++
    (if true ∈ regOutcomes then hbOutcomes.map AgentEvent.heartbeat else [])

/-- A lowercase hexadecimal digit (0-9 or a-f). -/
def isLowerHexDigit (c : Char) : Bool :=
  (48 ≤ c.toNat && c.toNat ≤ 57) || (97 ≤ c.toNat && c.toNat ≤ 102)

/-- All five hardware signals are absent. -/
def allSignalsEmpty (s : HardwareSignals) : Prop :=
  s.systemUUID = "" ∧ s.macAddresses = [] ∧ s.osMachineID = "" ∧
    s.cpuInfo = "" ∧ s.bootID = ""

instance (s : HardwareSignals) : Decidable (allSignalsEmpty s) := by
  unfold allSignalsEmpty; infer_instance

/-- Sorted in the byte-wise string order used by sort.Strings. -/
def StrSorted (l : List String) : Prop :=
  l.Pairwise fun a b => goStringLE a b = true

/-! ## Helper lemmas -/

theorem charListCompare_neg (a b : List Char) :
    Semver.charListCompare a b = -Semver.charListCompare b a := by
  induction a generalizing b with
  | nil => cases b <;> simp [Semver.charListCompare]
  | cons x xs ih =>
    cases b with
    | nil => simp [Semver.charListCompare]
    | cons y ys =>
      simp only [Semver.charListCompare]
      rcases Nat.lt_trichotomy x.toNat y.toNat with h | h | h
      · simp [h, Nat.lt_asymm h]
      · simp [h, Nat.lt_irrefl, ih]
      · simp [h, Nat.lt_asymm h]

theorem charListCompare_trans {a b c : List Char}
    (h1 : Semver.charListCompare a b ≠ 1) (h2 : Semver.charListCompare b c ≠ 1) :
    Semver.charListCompare a c ≠ 1 := by
  induction a generalizing b c with
  | nil => cases c <;> simp [Semver.charListCompare]
  | cons x xs ih =>
    cases b with
    | nil => simp [Semver.charListCompare] at h1
    | cons y ys =>
      cases c with
      | nil => simp [Semver.charListCompare] at h2
      | cons z zs =>
        simp only [Semver.charListCompare] at h1 h2 ⊢
        split_ifs at h1 h2 ⊢ <;>
          first
          | decide
          | omega
          | (exact absurd rfl h1)
          | (exact absurd rfl h2)
          | (exact ih h1 h2)

theorem goStringLE_eq_true_iff (a b : String) :
    goStringLE a b = true ↔ Semver.charListCompare a.data b.data ≠ 1 := by
  simp [goStringLE]

theorem goStringLE_total (a b : String) :
    goStringLE a b = true ∨ goStringLE b a = true := by
  by_cases h : Semver.charListCompare a.data b.data = 1
  · right
    rw [goStringLE_eq_true_iff, charListCompare_neg, h]
    decide
  · left
    exact (goStringLE_eq_true_iff a b).mpr h

theorem goStringLE_trans {a b c : String} (h1 : goStringLE a b = true)
    (h2 : goStringLE b c = true) : goStringLE a c = true :=
  (goStringLE_eq_true_iff a c).mpr
    (charListCompare_trans ((goStringLE_eq_true_iff a b).mp h1)
      ((goStringLE_eq_true_iff b c).mp h2))

theorem mem_insertSorted (x y : String) (l : List String) :
    y ∈ insertSorted x l ↔ y = x ∨ y ∈ l := by
  induction l with
  | nil => simp [insertSorted]
  | cons z zs ih =>
    simp only [insertSorted]
    split
    · simp [List.mem_cons]
    · simp only [List.mem_cons, ih]
      tauto

theorem sorted_insertSorted (x : String) {l : List String} (h : StrSorted l) :
    StrSorted (insertSorted x l) := by
  induction l with
  | nil => simp [insertSorted, StrSorted]
  | cons y ys ih =>
    have hy : ∀ z ∈ ys, goStringLE y z = true := (List.pairwise_cons.mp h).1
    have hys : StrSorted ys := (List.pairwise_cons.mp h).2
    simp only [insertSorted]
    split_ifs with hxy
    · exact List.pairwise_cons.mpr
        ⟨fun z hz => by
          rcases List.mem_cons.mp hz with rfl | hz
          · exact hxy
          · exact goStringLE_trans hxy (hy z hz), h⟩
    · refine List.pairwise_cons.mpr ⟨fun z hz => ?_, ih hys⟩
      rcases (mem_insertSorted x z ys).mp hz with rfl | hz
      · rcases goStringLE_total z y with hc | hc
        · exact absurd hc hxy
        · exact hc
      · exact hy z hz

theorem sorted_sortStrings (l : List String) : StrSorted (sortStrings l) := by
  induction l with
  | nil => simp [sortStrings, StrSorted]
  | cons x xs ih => exact sorted_insertSorted x ih

theorem mem_sortStrings (y : String) (l : List String) :
    y ∈ sortStrings l ↔ y ∈ l := by
  induction l with
  | nil => simp [sortStrings]
  | cons x xs ih =>
    show y ∈ insertSorted x (sortStrings xs) ↔ _
    rw [mem_insertSorted]
    simp [ih]

theorem mem_collectMACs {m : String} {ifaces : List NetInterface}
    (h : m ∈ collectMACs ifaces) :
    (∃ i ∈ ifaces, i.isLoopback = false ∧ i.hardwareAddr = m) ∧
      m ≠ "" ∧ isVirtualMAC m = false := by
  induction ifaces with
  | nil => simp [collectMACs] at h
  | cons i rest ih =>
    simp only [collectMACs] at h
    split_ifs at h with h1 h2
    · obtain ⟨⟨j, hj, hprop⟩, hrest⟩ := ih h
      exact ⟨⟨j, List.mem_cons_of_mem i hj, hprop⟩, hrest⟩
    · rcases List.mem_cons.mp h with rfl | h
      · exact ⟨⟨i, List.mem_cons_self i rest,
          Bool.not_eq_true i.isLoopback ▸ eq_false_of_ne_true h1, rfl⟩, h2.1, h2.2⟩
      · obtain ⟨⟨j, hj, hprop⟩, hrest⟩ := ih h
        exact ⟨⟨j, List.mem_cons_of_mem i hj, hprop⟩, hrest⟩
    · obtain ⟨⟨j, hj, hprop⟩, hrest⟩ := ih h
      exact ⟨⟨j, List.mem_cons_of_mem i hj, hprop⟩, hrest⟩

theorem componentsOf_eq_nil_iff (s : HardwareSignals) :
    componentsOf s = [] ↔ allSignalsEmpty s := by
  simp only [componentsOf, allSignalsEmpty, List.append_eq_nil, gt_iff_lt,
    List.length_pos]
  split_ifs <;> simp_all

theorem wordHex_length (w : Nat) : (Sha256.wordHex w).length = 8 := by
  simp [Sha256.wordHex]

theorem sha256hex_length (s : String) : (sha256hex s).length = 64 := by
  show (Sha256.digestChars (Sha256.digest (strBytes s))).length = 64
  simp [Sha256.digestChars, wordHex_length]

theorem hexDigitChar_lower {n : Nat} (h : n < 16) :
    isLowerHexDigit (Sha256.hexDigitChar n) = true := by
  interval_cases n <;> decide

theorem digestChars_lower (st : Sha256.HashState) :
    ∀ c ∈ Sha256.digestChars st, isLowerHexDigit c = true := by
  intro c hc
  simp only [Sha256.digestChars, Sha256.wordHex, List.mem_append, List.mem_map,
    List.mem_range] at hc
  rcases hc with ((((((⟨i, _, rfl⟩ | ⟨i, _, rfl⟩) | ⟨i, _, rfl⟩) | ⟨i, _, rfl⟩) |
    ⟨i, _, rfl⟩) | ⟨i, _, rfl⟩) | ⟨i, _, rfl⟩) | ⟨i, _, rfl⟩ <;>
    exact hexDigitChar_lower (Nat.mod_lt _ (by norm_num))

theorem registerPhase_replicate (N : Nat) :
    registerPhase (List.replicate N false ++ [true]) =
      (List.replicate N [AgentEvent.registerAttempt, AgentEvent.retryWait]).flatten ++
        [AgentEvent.registerAttempt, AgentEvent.registerSuccess] := by
  induction N with
  | zero => simp [registerPhase]
  | succ n ih => simp [List.replicate_succ, registerPhase, ih]

theorem count_flatten_replicate (e : AgentEvent) (n : Nat) (l : List AgentEvent) :
    List.count e (List.replicate n l).flatten = n * List.count e l := by
  induction n with
  | zero => simp
  | succ m ih =>
    simp [List.replicate_succ, List.count_append, ih]
    ring

/-! ## Claim theorems -/

/-- C1: the claim that CheckForUpdates applies no update when the
configured current version fails to parse is FALSE on the code: the
error of semver.Make is discarded, the zero version 0.0.0 stands in for
the unparsable current version bad-tag, 0.2.0 is greater than 0.0.0, and
the download/rename/chmod/restart path runs. The spec (malformed
versions must never trigger an update) states the evident intent, so
this is a code bug; this theorem evaluates the code at the failing
input. -/
theorem C1_bug_eval :
    CheckForUpdates ⟨"token", "https://api.example.com", true, "bad-tag"⟩
        ⟨.ok ⟨"0.2.0", [⟨"https://dl.example.com/certfix-agent",
          "certfix-agent-linux-amd64"⟩]⟩, true, true, true⟩ =
      .normal [.fetchRelease, .download "https://dl.example.com/certfix-agent",
        .renameBinary, .chmodBinary, .restartService] := by
  decide

/-- C2 counterexample: a persisted file holding 64 non-hex characters
(64 times z) is returned unchanged by GenerateMachineID, although the
claim demands regeneration from hardware signals for non-hex content; at
this input regeneration would not even succeed (all signals empty), so
what is returned is certainly not a regenerated identity. -/
theorem C2_counterexample :
    GenerateMachineID
        ⟨some "zzzzzzzzzzzzzzzzzzzzzzzzzzzzzzzzzzzzzzzzzzzzzzzzzzzzzzzzzzzzzzzz",
         ⟨"", [], "", "", ""⟩, true⟩ =
      .ok "zzzzzzzzzzzzzzzzzzzzzzzzzzzzzzzzzzzzzzzzzzzzzzzzzzzzzzzzzzzzzzzz" ∧
    generateFromHardware ⟨"", [], "", "", ""⟩ =
      .error "could not collect any hardware identifiers" :=
  ⟨rfl, rfl⟩

/-- C2 (amended): GenerateMachineID returns the persisted content
(whitespace-trimmed) unchanged exactly when its byte length is 64 —
hex-ness of the characters is not checked — and any other length causes
regeneration from hardware rather than a crash. -/
theorem C2_amended (env : MachineIDEnv) (content : String)
    (h : env.storedFile = some content) :
    (goLen (goTrimSpace content) = 64 →
      GenerateMachineID env = .ok (goTrimSpace content)) ∧
    (goLen (goTrimSpace content) ≠ 64 →
      GenerateMachineID env = generateNewID env) := by
  constructor
  · intro hlen
    have hne : goTrimSpace content ≠ "" := by
      intro he
      rw [he] at hlen
      exact absurd hlen (by decide)
    simp [GenerateMachineID, loadStoredMachineID, h, hlen, hne]
  · intro hlen
    simp [GenerateMachineID, loadStoredMachineID, h, hlen]

/-- C2 witness: a stored file of 8 characters (length differing from 64)
makes GenerateMachineID fall through to hardware regeneration. -/
theorem C2_amended_witness :
    GenerateMachineID ⟨some "deadbeef", ⟨"u", [], "", "", ""⟩, true⟩ =
      generateNewID ⟨some "deadbeef", ⟨"u", [], "", "", ""⟩, true⟩ :=
  (C2_amended ⟨some "deadbeef", ⟨"u", [], "", "", ""⟩, true⟩ "deadbeef" rfl).2
    (by decide)

/-- C3 counterexample: when restoring the executable permission bits
fails, the service restart IS still performed (the chmod error is logged
without an early return), refuting the claim that every failed step
aborts all remaining steps. -/
theorem C3_counterexample :
    Effect.restartService ∈
      updateBinary "https://dl.example.com/certfix-agent"
        ⟨.transportError, true, true, false⟩ := by
  decide

/-- C3 (amended): in the swap protocol a failed download aborts the
rename, chmod and restart, and a failed rename aborts the chmod and the
restart; a failed chmod however is only logged and the restart is still
performed (the trace is the same whether chmod succeeds or fails). -/
theorem C3_amended (url : String) (env : UpdateEnv) :
    (env.downloadOk = false → updateBinary url env = [.download url]) ∧
    (env.downloadOk = true → env.renameOk = false →
      updateBinary url env = [.download url, .renameBinary]) ∧
    (env.downloadOk = true → env.renameOk = true →
      updateBinary url env =
        [.download url, .renameBinary, .chmodBinary, .restartService]) := by
  refine ⟨fun h1 => ?_, fun h1 h2 => ?_, fun h1 h2 => ?_⟩
  · simp [updateBinary, h1]
  · simp [updateBinary, h1, h2]
  · simp [updateBinary, h1, h2]

/-- C3 witness: a failed rename stops before the chmod and restart. -/
theorem C3_amended_witness :
    updateBinary "u" ⟨.transportError, true, false, true⟩ =
      [.download "u", .renameBinary] :=
  (C3_amended "u" ⟨.transportError, true, false, true⟩).2.1 rfl rfl

/-- C4: the claim that CheckForUpdates never performs an out-of-bounds
access is FALSE on the code: a release whose tag is newer but whose
assets list is empty makes rel.Assets[0] panic (index out of range),
which also contradicts the spec sentence that a failed check is never
fatal to the running agent — a code bug. This theorem evaluates the
code at the failing input. -/
theorem C4_bug_eval :
    CheckForUpdates ⟨"token", "https://api.example.com", true, "0.0.0"⟩
        ⟨.ok ⟨"0.1.0", []⟩, true, true, true⟩ =
      .panicked [.fetchRelease] "index out of range" := by
  decide

/-- C5 counterexample: two distinct non-loopback interfaces carrying the
same MAC produce a duplicated entry — getMACAddresses sorts but does not
de-duplicate, refuting the no-duplicates part of the claim. -/
theorem C5_counterexample :
    getMACAddresses [⟨false, "aa:bb:cc:dd:ee:01"⟩, ⟨false, "aa:bb:cc:dd:ee:01"⟩] =
      ["aa:bb:cc:dd:ee:01", "aa:bb:cc:dd:ee:01"] ∧
    ¬ (getMACAddresses
        [⟨false, "aa:bb:cc:dd:ee:01"⟩, ⟨false, "aa:bb:cc:dd:ee:01"⟩]).Nodup := by
  constructor <;> decide

/-- C5 (amended): for every set of network interfaces the MAC signal
list is sorted (byte-wise string order) and every entry is the hardware
address of some non-loopback interface, is non-empty, and matches none
of the fixed virtual vendor prefixes case-insensitively; duplicates,
however, are not removed. -/
theorem C5_amended (ifaces : List NetInterface) :
    StrSorted (getMACAddresses ifaces) ∧
    ∀ m ∈ getMACAddresses ifaces,
      (∃ i ∈ ifaces, i.isLoopback = false ∧ i.hardwareAddr = m) ∧
      m ≠ "" ∧ isVirtualMAC m = false ∧
      ∀ p ∈ virtualMacPrefixList,
        hasPrefixChars (goToLower p).data (goToLower m).data = false := by
  refine ⟨sorted_sortStrings _, fun m hm => ?_⟩
  have hm' : m ∈ collectMACs ifaces := (mem_sortStrings m _).mp hm
  obtain ⟨hsrc, hne, hvirt⟩ := mem_collectMACs hm'
  refine ⟨hsrc, hne, hvirt, fun p hp => ?_⟩
  have := hvirt
  simp only [isVirtualMAC, List.any_eq_false] at this
  exact eq_false_of_ne_true (this p hp)

/-- C5 witness: a single ordinary interface yields its address with all
the filtering facts attached. -/
theorem C5_amended_witness :
    (∃ i ∈ [(⟨false, "aa:bb:cc:dd:ee:01"⟩ : NetInterface)],
      i.isLoopback = false ∧ i.hardwareAddr = "aa:bb:cc:dd:ee:01") ∧
    "aa:bb:cc:dd:ee:01" ≠ "" ∧ isVirtualMAC "aa:bb:cc:dd:ee:01" = false ∧
    ∀ p ∈ virtualMacPrefixList,
      hasPrefixChars (goToLower p).data (goToLower "aa:bb:cc:dd:ee:01").data = false :=
  (C5_amended [⟨false, "aa:bb:cc:dd:ee:01"⟩]).2 "aa:bb:cc:dd:ee:01" (by decide)

/-- C6: hardware identity derivation is deterministic (the embedding is
a pure function, so two runs on the same signals coincide) and
well-formed — for every signal set with at least one collected
component, the result is ok with exactly the lowercase SHA-256 hex (64
hex characters) of the non-empty components joined with the pipe
delimiter in collection order. -/
theorem C6_derivation_deterministic_wellformed (s : HardwareSignals)
    (h : componentsOf s ≠ []) :
    generateFromHardware s = generateFromHardware s ∧
    ∃ id, generateFromHardware s = .ok id ∧
      id = sha256hex (String.intercalate "|" (componentsOf s)) ∧
      id.length = 64 ∧ ∀ c ∈ id.data, isLowerHexDigit c = true := by
  refine ⟨rfl, sha256hex (String.intercalate "|" (componentsOf s)), ?_, rfl,
    sha256hex_length _, fun c hc => digestChars_lower _ c hc⟩
  simp [generateFromHardware, List.isEmpty_iff, h]

/-- C6 witness: derivation on a platform UUID alone. -/
theorem C6_derivation_witness :
    ∃ id, generateFromHardware ⟨"uuid-1234", [], "", "", ""⟩ = .ok id ∧
      id = sha256hex (String.intercalate "|"
        (componentsOf ⟨"uuid-1234", [], "", "", ""⟩)) ∧
      id.length = 64 ∧ ∀ c ∈ id.data, isLowerHexDigit c = true :=
  (C6_derivation_deterministic_wellformed ⟨"uuid-1234", [], "", "", ""⟩
    (by decide)).2

/-- C7: when no valid persisted identity exists (loading failed or gave
the empty string), GenerateMachineID errors exactly when all five
signals are empty, returns an identifier whenever at least one signal is
non-empty, and its result never depends on whether persisting the new
identifier succeeds. -/
theorem C7_error_iff_no_signals (env : MachineIDEnv)
    (h : ∀ id, loadStoredMachineID env.storedFile = .ok id → id = "") :
    ((∃ e, GenerateMachineID env = .error e) ↔ allSignalsEmpty env.signals) ∧
    (¬ allSignalsEmpty env.signals → ∃ id, GenerateMachineID env = .ok id) ∧
    (∀ b1 b2 : Bool,
      GenerateMachineID { env with storeOk := b1 } =
        GenerateMachineID { env with storeOk := b2 }) := by
  have hgen : GenerateMachineID env = generateNewID env := by
    unfold GenerateMachineID
    cases hload : loadStoredMachineID env.storedFile with
    | ok id => simp [h id hload]
    | error e => rfl
  have hstore : ∀ b : Bool,
      GenerateMachineID { env with storeOk := b } = GenerateMachineID env := by
    intro b
    unfold GenerateMachineID generateNewID
    rfl
  refine ⟨?_, ?_, fun b1 b2 => (hstore b1).trans (hstore b2).symm⟩
  · rw [hgen]
    by_cases hc : allSignalsEmpty env.signals
    · have hnil : componentsOf env.signals = [] := (componentsOf_eq_nil_iff _).mpr hc
      simp [generateNewID, generateFromHardware, hnil, hc]
    · have hnil : componentsOf env.signals ≠ [] :=
        fun hh => hc ((componentsOf_eq_nil_iff _).mp hh)
      simp [generateNewID, generateFromHardware, List.isEmpty_iff, hnil, hc]
  · intro hc
    rw [hgen]
    have hnil : componentsOf env.signals ≠ [] :=
      fun hh => hc ((componentsOf_eq_nil_iff _).mp hh)
    simp [generateNewID, generateFromHardware, List.isEmpty_iff, hnil]

/-- C7 witness: with no persisted file and only a platform UUID present,
derivation succeeds. -/
theorem C7_error_iff_no_signals_witness :
    ∃ id, GenerateMachineID ⟨none, ⟨"uuid-9", [], "", "", ""⟩, false⟩ = .ok id :=
  (C7_error_iff_no_signals ⟨none, ⟨"uuid-9", [], "", "", ""⟩, false⟩
    (fun _ h => nomatch h)).2.1 (by decide)

/-- C8: for every run whose registration outcomes are N failures
followed by a success, the loop performs exactly N+1 registration
attempts of which exactly one succeeds, never exits the process, and the
whole remaining trace is exactly one heartbeat event per tick — a
heartbeat failure neither terminates the loop nor triggers any further
registration attempt. -/
theorem C8_register_retry_heartbeat (N : Nat) (hb : List Bool) :
    List.count AgentEvent.registerAttempt
        (handleStartTrace (List.replicate N false ++ [true]) hb) = N + 1 ∧
    List.count AgentEvent.registerSuccess
        (handleStartTrace (List.replicate N false ++ [true]) hb) = 1 ∧
    AgentEvent.processExit ∉ handleStartTrace (List.replicate N false ++ [true]) hb ∧
    handleStartTrace (List.replicate N false ++ [true]) hb =
      registerPhase (List.replicate N false ++ [true]) ++
        hb.map AgentEvent.heartbeat ∧
    AgentEvent.registerAttempt ∉ hb.map AgentEvent.heartbeat := by
  have htrace : handleStartTrace (List.replicate N false ++ [true]) hb =
      registerPhase (List.replicate N false ++ [true]) ++
        hb.map AgentEvent.heartbeat := by
    simp [handleStartTrace]
  have hhb : ∀ e : AgentEvent, (∀ ok : Bool, e ≠ .heartbeat ok) →
      List.count e (hb.map AgentEvent.heartbeat) = 0 := by
    intro e he
    rw [List.count_eq_zero]
    intro hmem
    obtain ⟨ok, _, rfl⟩ := List.mem_map.mp hmem
    exact he ok rfl
  rw [htrace, registerPhase_replicate]
  refine ⟨?_, ?_, ?_, rfl, ?_⟩
  · simp [List.count_append, count_flatten_replicate,
      hhb AgentEvent.registerAttempt (fun ok => by simp)]
  · simp [List.count_append, count_flatten_replicate,
      hhb AgentEvent.registerSuccess (fun ok => by simp)]
  · simp [List.mem_append, List.mem_flatten, List.mem_replicate, List.mem_map]
  · simp [List.mem_map]

/-- C8 witness: two failures then a success give three attempts. -/
theorem C8_register_retry_heartbeat_witness :
    List.count AgentEvent.registerAttempt
      (handleStartTrace (List.replicate 2 false ++ [true]) [true, false]) = 2 + 1 :=
  (C8_register_retry_heartbeat 2 [true, false]).1

/-- C9: loadConfig errors exactly when the file is unreadable, the
content does not decode, the token is empty or the endpoint is empty;
every successful load carries a non-empty token and endpoint and a
current version equal to the decoded value when non-empty and to the
default 0.0.0 otherwise. -/
theorem C9_loadConfig_contract (r : Option String)
    (u : String → Option RawAgentConfig) :
    ((∃ e, loadConfig r u = .error e) ↔
      (r = none ∨ ∃ d, r = some d ∧ (u d = none ∨
        ∃ c, u d = some c ∧ (c.token = "" ∨ c.endpoint = "")))) ∧
    (∀ cfg, loadConfig r u = .ok cfg →
      cfg.token ≠ "" ∧ cfg.endpoint ≠ "" ∧
      ∃ d c, r = some d ∧ u d = some c ∧ cfg.token = c.token ∧
        cfg.endpoint = c.endpoint ∧
        cfg.currentVersion =
          (if c.currentVersion = "" then DEFAULT_VERSION else c.currentVersion)) := by
  cases r with
  | none => simp [loadConfig]
  | some d =>
    cases hu : u d with
    | none => simp [loadConfig, hu]
    | some c =>
      by_cases ht : c.token = ""
      · simp [loadConfig, hu, ht]
      · by_cases he : c.endpoint = ""
        · simp [loadConfig, hu, ht, he]
        · by_cases hv : c.currentVersion = ""
          · constructor
            · simp [loadConfig, hu, ht, he, hv]
            · intro cfg hcfg
              simp only [loadConfig, hu, ht, he, hv, if_true, if_false,
                Except.ok.injEq] at hcfg
              subst hcfg
              exact ⟨ht, he, d, c, rfl, hu, rfl, rfl, by simp [hv]⟩
          · constructor
            · simp [loadConfig, hu, ht, he, hv]
            · intro cfg hcfg
              simp only [loadConfig, hu, ht, he, hv, if_true, if_false,
                Except.ok.injEq] at hcfg
              subst hcfg
              exact ⟨ht, he, d, c, rfl, hu, rfl, rfl, by simp [hv]⟩

/-- C9 witness: an unreadable file is an error. -/
theorem C9_loadConfig_contract_witness :
    ∃ e, loadConfig none (fun _ => none) = .error e :=
  (C9_loadConfig_contract none (fun _ => none)).1.mpr (Or.inl rfl)

/-- C10: when automatic updates are disabled the gate returns before any
effect — no fetch, no download, no binary modification, no restart —
whatever the collaborators would have answered. -/
theorem C10_autoupdate_gate (cfg : Config) (env : UpdateEnv)
    (h : cfg.autoUpdate = false) :
    CheckForUpdates cfg env = .normal [] := by
  simp [CheckForUpdates, h]

/-- C10 witness: a disabled-update configuration is a no-op even in an
environment holding a newer release. -/
theorem C10_autoupdate_gate_witness :
    CheckForUpdates ⟨"token", "https://api.example.com", false, "0.1.0"⟩
      ⟨.ok ⟨"9.9.9", [⟨"u", "n"⟩]⟩, true, true, true⟩ = .normal [] :=
  C10_autoupdate_gate _ _ rfl

end CertfixAgent
